import Mathlib

/-!
Shallow embedding of the cell-normalization core of `src/main.py`
(spreadsheet column cleaner). A cell is `Option String`: `none` models a
pandas missing value (NaN under `dtype=str`), `some s` a string cell. Each
rule function returns `(output value, changed flag, rule tag)`, mirroring
the Python triples.

Modelling conventions, stated once here:
* Python `str.strip()` is modelled over the ASCII whitespace characters
  (space, tab, newline, carriage return, vertical tab, form feed); the
  repository's vocabularies contain no exotic Unicode whitespace.
* Python `str.upper()` / `str.lower()` / `str.capitalize()` act on the
  ASCII letters; CJK characters are caseless in both Python and this model.
* `rapidfuzz.fuzz.ratio(a, b)` is the normalized indel similarity
  `200 * lcs(a, b) / (|a| + |b|)` (a percentage in [0, 100]).  Scores are
  kept as exact integer numerator/denominator pairs and compared by
  cross-multiplication, so no floating point enters the model.
  `process.extractOne` with that scorer and no processor returns the first
  pool element attaining the maximal score.
* Python `float(...)` followed by `f"{num:.3f}"` is modelled as exact
  decimal parsing followed by rounding half away from zero at the third
  decimal.  IEEE-754 doubles agree with this on every value whose decimal
  expansion is not within double-rounding distance of a 3-decimal tie;
  all concrete inputs in this development are in the agreeing region.
  The sign of an IEEE negative zero (Python prints `-0.000`) is not
  modelled; no concrete input here rounds to zero.
-/

/-- ASCII whitespace, the characters `str.strip()` removes for the
strings occurring in this repository. -/
def pyIsSpace (c : Char) : Bool :=
  c = ' ' || c = '\t' || c = '\n' || c = '\r' || c = '\x0b' || c = '\x0c'

/-- Strip leading and trailing whitespace from a character list. -/
def stripChars (cs : List Char) : List Char :=
  ((cs.dropWhile pyIsSpace).reverse.dropWhile pyIsSpace).reverse

/-- Python `str.strip()`. -/
def pyStrip (s : String) : String := String.mk (stripChars s.data)

/-- Python `str.upper()` (ASCII letters; CJK characters are caseless). -/
def pyUpper (s : String) : String := String.mk (s.data.map Char.toUpper)

/-- Python `str.lower()` (ASCII letters; CJK characters are caseless). -/
def pyLower (s : String) : String := String.mk (s.data.map Char.toLower)

/-- Python `str.capitalize()`: first character uppercased, rest lowercased. -/
def pyCapitalize (s : String) : String :=
  match s.data with
  | [] => ""
  | c :: cs => String.mk (Char.toUpper c :: cs.map Char.toLower)

/-- Python `s.replace(a, b)` for single characters `a`, `b`. -/
def replaceChar (a b : Char) (s : String) : String :=
  String.mk (s.data.map (fun c => if c = a then b else c))

/-- Python `s.replace(a, "")` for a single character `a`. -/
def removeChar (a : Char) (s : String) : String :=
  String.mk (s.data.filter (fun c => c ≠ a))

/-- `listStarts pat cs`: `cs` begins with `pat`. -/
def listStarts : List Char → List Char → Bool
  | [], _ => true
  | _ :: _, [] => false
  | p :: ps, c :: cs => p = c && listStarts ps cs

/-- `listHas pat cs`: `pat` occurs as a contiguous run inside `cs`
(Python's `pat in cs` substring test). -/
def listHas (pat : List Char) : List Char → Bool
  | [] => listStarts pat []
  | c :: cs => listStarts pat (c :: cs) || listHas pat cs

/-- Python `needle in hay` on strings. -/
def pySubstr (needle hay : String) : Bool := listHas needle.data hay.data

/-- Python `s.startswith(p)`. -/
def pyStarts (s p : String) : Bool := listStarts p.data s.data

/-- Python `str.split()` with no arguments: split on whitespace runs,
dropping empty words.  `acc` is the (reversed) word being accumulated. -/
def wordsAux (acc : List Char) : List Char → List (List Char)
  | [] => if acc.isEmpty then [] else [acc.reverse]
  | c :: cs =>
    if pyIsSpace c then
      if acc.isEmpty then wordsAux [] cs else acc.reverse :: wordsAux [] cs
    else wordsAux (c :: acc) cs

/-- `specials` of `smart_title` in `src/main.py` line 25. -/
def SPECIALS : List String := ["MB", "DB", "KB", "TCON", "PC", "PET", "PVC"]

/-- `smart_title` (`src/main.py` lines 23-28): hyphens and underscores
become spaces, each word is capitalized, known abbreviations stay
all-uppercase. -/
def smart_title (text : String) : String :=
  let t := replaceChar '_' ' ' (replaceChar '-' ' ' text)
  let ws := wordsAux [] t.data
  String.intercalate " " (ws.map (fun w =>
    let wu := pyUpper (String.mk w)
    if wu ∈ SPECIALS then wu else pyCapitalize (String.mk w)))

/-- One row update of the classic LCS dynamic program.  `prev` holds the
previous row's values from the current position on, `diag` the previous
row's value one position left, `left` the current row's value one
position left. -/
def lcsRowAux (x : Char) : List Char → List Nat → Nat → Nat → List Nat
  | [], _, _, _ => []
  | y :: ys, prev, diag, left =>
    let cur := if x = y then diag + 1 else max left (prev.headD 0)
    cur :: lcsRowAux x ys prev.tail (prev.headD 0) cur

/-- Length of a longest common subsequence of two character lists
(row-by-row dynamic program, structurally recursive so that concrete
scores evaluate inside the kernel). -/
def lcs (a b : List Char) : Nat :=
  (a.foldl (fun prev x => lcsRowAux x b prev 0 0) (List.replicate b.length 0)).getLastD 0

/-- Numerator of `rapidfuzz.fuzz.ratio a b` as an exact fraction:
the similarity is `scoreNum / scoreDen` percent. -/
def scoreNum (a b : List Char) : Nat := 200 * lcs a b

/-- Denominator of `rapidfuzz.fuzz.ratio a b` as an exact fraction. -/
def scoreDen (a b : List Char) : Nat := a.length + b.length

/-- One step of `process.extractOne`: keep the incumbent best unless the
new candidate scores strictly higher (rapidfuzz keeps the first best). -/
def extractStep (s : String) (acc : Option (String × Nat × Nat)) (t : String) :
    Option (String × Nat × Nat) :=
  let n := scoreNum s.data t.data
  let d := scoreDen s.data t.data
  match acc with
  | none => some (t, n, d)
  | some (b, bn, bd) => if bn * d < n * bd then some (t, n, d) else some (b, bn, bd)

/-- `rapidfuzz.process.extractOne s pool` with scorer `fuzz.ratio` and no
processor: the best-scoring pool element together with its exact score
fraction, `none` on an empty pool. -/
def extractOne (s : String) (pool : List String) : Option (String × Nat × Nat) :=
  pool.foldl (extractStep s) none

/-- `fuzzy_one` (`src/main.py` lines 31-37): best fuzzy match above the
threshold, else `none`.  `match[1] >= threshold` on the score fraction
`n / d` is the cross-multiplied test `threshold * d ≤ n`. -/
def fuzzy_one (s : String) (pool : List String) (threshold : Nat) : Option String :=
  if s = "" then none
  else
    match extractOne s pool with
    | none => none
    | some (b, n, d) => if threshold * d ≤ n then some b else none

/-- `MYLAR_CATS` (`src/main.py` line 10). -/
def MYLAR_CATS : List String :=
  ["Mylar", "MB Mylar", "DB Mylar", "KB Mylar", "Touchpad Mylar", "D Cover Mylar", "TCON Mylar"]

/-- `COLORS` (`src/main.py` line 11). -/
def COLORS : List String := ["Black", "Yellow", "Blue"]

/-- `MATERIALS` (`src/main.py` line 12). -/
def MATERIALS : List String := ["PC", "PET", "PVC", "Acrylic"]

/-- `FP_FLAGS` (`src/main.py` line 13). -/
def FP_FLAGS : List String := ["W/ FP", "W/O FP"]

/-- `ADHESIVES` (`src/main.py` line 14). -/
def ADHESIVES : List String :=
  ["3M9495", "3M300LSE", "3M9448A", "3M9448B", "3M200MP", "DSTT-13N", "DSTT-7N", "SDK7100"]

/-- `OTHERS` (`src/main.py` line 15). -/
def OTHERS : List String := ["Object", "Gluing"]

/-- `TARGET_COLS` (`src/main.py` lines 18-19). -/
def TARGET_COLS : List String :=
  ["物料简称", "名称", "项目名称", "颜色", "材质", "长L(mm)", "宽W(mm)", "厚H(mm)",
   "是否带指纹", "背胶型号", "其它特殊属性"]

/-- The guard `pd.isna(val) or not str(val).strip()` shared by every rule
(`clean_number` spells it `str(val).strip() == ""`, which is the same
test): missing, empty, or whitespace-only. -/
def isBlank : Option String → Bool
  | none => true
  | some s => pyStrip s == ""

/-- `re.sub(r"[^A-Z]", " ", t)` from `src/main.py` line 61: every
character outside `A`-`Z` becomes a space. -/
def lettersToSpace (s : String) : String :=
  String.mk (s.data.map (fun c => if 'A' ≤ c ∧ c ≤ 'Z' then c else ' '))

/-- `clean_mylar_name` (`src/main.py` lines 42-77). -/
def clean_mylar_name (val : Option String) : Option String × Bool × String :=
  if isBlank val then (val, false, "none") else
  let raw := pyStrip (val.getD "")
  let txt_u := pyUpper raw
  if pySubstr "触摸板" raw then (some "Touchpad Mylar", true, "cn_keyword") else
  if pySubstr "键盘" raw then (some "KB Mylar", true, "cn_keyword") else
  if pySubstr "主板" raw then (some "MB Mylar", true, "cn_keyword") else
  if pySubstr "副板" raw || pySubstr "DDR" txt_u then (some "DB Mylar", true, "cn_keyword") else
  if pySubstr "麦拉" raw || pySubstr "MYLAR" txt_u then
    (if pySubstr " MB" (" " ++ txt_u ++ " ") || pyStarts txt_u "MB " then
       (some "MB Mylar", true, "keyword_rule")
     else if pySubstr " DB" (" " ++ txt_u ++ " ") then
       (some "DB Mylar", true, "keyword_rule")
     else if pySubstr " KB" (" " ++ txt_u ++ " ") then
       (some "KB Mylar", true, "keyword_rule")
     else if pySubstr "TOUCH" txt_u || pySubstr "TP" (lettersToSpace txt_u) then
       (some "Touchpad Mylar", true, "keyword_rule")
     else (some "Mylar", true, "cn_keyword"))
  else
  let norm := smart_title raw
  if norm ∈ MYLAR_CATS then
    (if norm = raw then (some norm, false, "standard") else (some norm, true, "case_fix"))
  else
    match fuzzy_one norm MYLAR_CATS 86 with
    | some hit => (some hit, true, "fuzzy")
    | none => (some raw, false, "unchanged")

/-- `COLOR_CN` (`src/main.py` lines 81-85) as an association list. -/
def COLOR_CN : List (String × String) :=
  [("黑", "Black"), ("黑色", "Black"),
   ("黄", "Yellow"), ("黄色", "Yellow"),
   ("蓝", "Blue"), ("蓝色", "Blue")]

/-- `COLOR_STRICT_RE.match raw` (`src/main.py` line 86) for an already
stripped `raw` (the caller strips first, so the regex's `\s*` borders are
vacuous): the whole string is one of the nine alternatives, the English
ones case-insensitively. -/
def COLOR_STRICT_match (raw : String) : Bool :=
  raw ∈ ["黑", "黑色", "黄", "黄色", "蓝", "蓝色"] ||
  pyLower raw ∈ ["black", "yellow", "blue"]

/-- `clean_color` (`src/main.py` lines 89-111).  The strict block either
returns or falls through to the fuzzy branch, mirrored by the
intermediate `Option`. -/
def clean_color (val : Option String) : Option String × Bool × String :=
  if isBlank val then (val, false, "none") else
  let raw := pyStrip (val.getD "")
  let strictRes : Option (Option String × Bool × String) :=
    if COLOR_STRICT_match raw then
      let key := pyLower raw
      if key ∈ ["black", "yellow", "blue"] then
        let std := pyCapitalize key
        if std = raw then some (some std, false, "standard")
        else some (some std, true, "case_fix")
      else
        match List.lookup raw COLOR_CN with
        | some mapped => some (some mapped, true, "cn_mapping")
        | none => none
    else none
  match strictRes with
  | some r => r
  | none =>
    match fuzzy_one raw COLORS 92 with
    | some hit => (some hit, true, "fuzzy")
    | none => (some raw, false, "unchanged")

/-- `MATERIAL_CN` (`src/main.py` lines 115-120) as an association list. -/
def MATERIAL_CN : List (String × String) :=
  [("聚碳酸酯", "PC"), ("聚酯", "PET"), ("丙烯酸", "Acrylic"), ("聚氯乙烯", "PVC")]

/-- `MATERIAL_STRICT_RE.match raw` (`src/main.py` line 121) for stripped
`raw`. -/
def MATERIAL_STRICT_match (raw : String) : Bool :=
  pyLower raw ∈ ["pc", "pet", "pvc", "acrylic"] ||
  raw ∈ ["聚碳酸酯", "聚酯", "丙烯酸", "聚氯乙烯"]

/-- `clean_material` (`src/main.py` lines 124-145). -/
def clean_material (val : Option String) : Option String × Bool × String :=
  if isBlank val then (val, false, "none") else
  let raw := pyStrip (val.getD "")
  let strictRes : Option (Option String × Bool × String) :=
    if MATERIAL_STRICT_match raw then
      let low := pyLower raw
      if low ∈ ["pc", "pet", "pvc"] then
        let std := pyUpper low
        if std = raw then some (some std, false, "standard")
        else some (some std, true, "case_fix")
      else if low = "acrylic" then
        (if raw = "Acrylic" then some (some "Acrylic", false, "standard")
         else some (some "Acrylic", true, "case_fix"))
      else
        match List.lookup raw MATERIAL_CN with
        | some mapped => some (some mapped, true, "cn_mapping")
        | none => none
    else none
  match strictRes with
  | some r => r
  | none =>
    match fuzzy_one raw MATERIALS 92 with
    | some hit => (some hit, true, "fuzzy")
    | none => (some raw, false, "unchanged")

/-- `clean_fingerprint` (`src/main.py` lines 149-166).  `raw` is the
stripped, uppercased, space-free form; the final fall-through returns the
original `str(val)`. -/
def clean_fingerprint (val : Option String) : Option String × Bool × String :=
  if isBlank val then (val, false, "none") else
  let sval := val.getD ""
  let raw := removeChar ' ' (pyUpper (pyStrip sval))
  if raw ∈ ["有", "YES", "Y"] then (some "W/ FP", true, "mapping") else
  if raw ∈ ["无", "NO", "N"] then (some "W/O FP", true, "mapping") else
  if pySubstr "W/FP" raw || pySubstr "WITHFP" raw || pySubstr "HASFP" raw then
    (some "W/ FP", true, "mapping") else
  if pySubstr "W/OFP" raw || pySubstr "WITHOUTFP" raw || pySubstr "NOFP" raw then
    (some "W/O FP", true, "mapping") else
  if raw = "W/FP" then
    (if "W/ FP" = sval then (some "W/ FP", false, "standard")
     else (some "W/ FP", true, "case_fix")) else
  if raw = "W/OFP" then
    (if "W/O FP" = sval then (some "W/O FP", false, "standard")
     else (some "W/O FP", true, "case_fix")) else
  (some sval, false, "unchanged")

/-- `clean_adhesive` (`src/main.py` lines 170-184).  The `for a in
ADHESIVES` loop returning on the first case/space-insensitive hit is
`List.find?`. -/
def clean_adhesive (val : Option String) : Option String × Bool × String :=
  if isBlank val then (val, false, "none") else
  let raw := pyStrip (val.getD "")
  if raw ∈ ADHESIVES then (some raw, false, "standard") else
  let norm := removeChar ' ' (pyUpper raw)
  match ADHESIVES.find? (fun a => norm == removeChar ' ' (pyUpper a)) with
  | some a =>
    if a = raw then (some a, false, "standard") else (some a, true, "case_fix")
  | none =>
    match fuzzy_one raw ADHESIVES 94 with
    | some hit => (some hit, true, "fuzzy")
    | none => (some raw, false, "unchanged")

/-- `clean_other` (`src/main.py` lines 188-199). -/
def clean_other (val : Option String) : Option String × Bool × String :=
  if isBlank val then (val, false, "none") else
  let raw := pyStrip (val.getD "")
  let u := pyUpper raw
  if pySubstr "GLUING" u || pySubstr "GLUE" u || pySubstr "ADHESIVE" u || pySubstr "BOND" u then
    (if raw = "Gluing" then (some "Gluing", false, "standard")
     else (some "Gluing", true, "mapping"))
  else if pySubstr "胶合" raw || pySubstr "粘接" raw || pySubstr "粘合" raw then
    (some "Gluing", true, "cn_mapping")
  else if raw ∈ OTHERS then (some raw, false, "standard")
  else (some raw, false, "unchanged")

/-- ASCII digit test, `\d` of `NUM_RE`. -/
def isDigitC (c : Char) : Bool := '0' ≤ c && c ≤ '9'

/-- A match of `NUM_RE = re.compile(r"-?\d+(?:\.\d+)?")` (`src/main.py`
line 203): an optional sign, the (nonempty) integer digits, and the
fraction digits (empty when the optional group did not participate). -/
structure NumMatch where
  neg : Bool
  ip : List Char
  fp : List Char
deriving DecidableEq

/-- Attempt to match `\d+(?:\.\d+)?` at the start of `cs`, with the sign
flag already decided.  The greedy `\d+` takes the maximal digit run; the
optional group participates only when a dot followed by at least one
digit follows. -/
def matchNumCore (neg : Bool) (cs : List Char) : Option NumMatch :=
  if (cs.takeWhile isDigitC).isEmpty then none
  else
    match cs.dropWhile isDigitC with
    | '.' :: r2 => some ⟨neg, cs.takeWhile isDigitC, r2.takeWhile isDigitC⟩
    | _ => some ⟨neg, cs.takeWhile isDigitC, []⟩

/-- Attempt to match `NUM_RE` anchored at the start of `cs`.  `-?` first
consumes a leading `-`; if no digits follow, the backtracked alternative
(empty sign at the same position) also fails, because the position holds
the `-` itself. -/
def matchNumAt (cs : List Char) : Option NumMatch :=
  match cs with
  | '-' :: r => matchNumCore true r
  | _ => matchNumCore false cs

/-- `NUM_RE.search`: the leftmost position where `NUM_RE` matches. -/
def NUM_RE_search : List Char → Option NumMatch
  | [] => none
  | c :: cs =>
    match matchNumAt (c :: cs) with
    | some m => some m
    | none => NUM_RE_search cs

/-- Decimal digit string to natural number. -/
def digitsToNat (ds : List Char) : Nat :=
  ds.foldl (fun n c => 10 * n + (c.toNat - '0'.toNat)) 0

/-- The exact value of a `NUM_RE` match, as (sign, numerator,
denominator): `m` denotes `± (digitsToNat ip + digitsToNat fp / 10 ^ |fp|)`. -/
def NumMatch.value (m : NumMatch) : Bool × Nat × Nat :=
  (m.neg, digitsToNat m.ip * 10 ^ m.fp.length + digitsToNat m.fp, 10 ^ m.fp.length)

/-- `m.group()`: the matched text. -/
def NumMatch.render (m : NumMatch) : String :=
  String.mk ((if m.neg then ['-'] else []) ++ m.ip ++
    (if m.fp.isEmpty then [] else '.' :: m.fp))

/-- The unsigned core of the Python `float()` literal grammar fragment
relevant here: `digits`, `digits.digits`, `digits.` or `.digits`, with at
least one digit; anything else raises `ValueError`, modelled as `none`.
The value is returned as an exact (sign, numerator, denominator)
triple. -/
def pyFloatCore (cs : List Char) : Option (Bool × Nat × Nat) :=
  match cs.dropWhile isDigitC with
  | [] =>
    if (cs.takeWhile isDigitC).isEmpty then none
    else some (false, digitsToNat (cs.takeWhile isDigitC), 1)
  | '.' :: r2 =>
    if r2.dropWhile isDigitC = [] then
      if (cs.takeWhile isDigitC).isEmpty && (r2.takeWhile isDigitC).isEmpty then none
      else some (false,
        digitsToNat (cs.takeWhile isDigitC) * 10 ^ (r2.takeWhile isDigitC).length +
          digitsToNat (r2.takeWhile isDigitC),
        10 ^ (r2.takeWhile isDigitC).length)
    else none
  | _ => none

/-- Python `float(s)` on the sign-digits-dot-digits fragment, as an exact
value; `none` models the `ValueError` that `float` raises on malformed
text.  (Whitespace padding, exponents, `inf`/`nan` and underscores never
occur in a `NUM_RE` match and are not modelled.) -/
def pyFloat (s : String) : Option (Bool × Nat × Nat) :=
  match s.data with
  | [] => none
  | c :: rest =>
    if c = '-' then (pyFloatCore rest).map (fun v => (true, v.2.1, v.2.2))
    else if c = '+' then pyFloatCore rest
    else pyFloatCore (c :: rest)

/-- `round(value * 1000)` of `f"{num:.3f}"`, on the exact value
`± a / b`: the magnitude is rounded half away from zero (see the header
note on IEEE ties). -/
def fix3 : Bool × Nat × Nat → Int
  | (neg, a, b) =>
    let mag := (2 * (a * 1000) + b) / (2 * b)
    if neg then -(mag : Int) else (mag : Int)

/-- Zero-pad a number below 1000 to three digits. -/
def pad3 (n : Nat) : String :=
  if n < 10 then "00" ++ toString n
  else if n < 100 then "0" ++ toString n
  else toString n

/-- `f"{num:.3f}"` where `n` is `round(num * 1000)`. -/
def fmtFixed3 (n : Int) : String :=
  (if n < 0 then "-" else "") ++ toString (n.natAbs / 1000) ++ "." ++ pad3 (n.natAbs % 1000)

/-- Python `s.rstrip(c)` for a single character. -/
def rstripChar (c : Char) (s : String) : String :=
  String.mk ((s.data.reverse.dropWhile (· = c)).reverse)

/-- `f"{num:.3f}".rstrip("0").rstrip(".")` (`src/main.py` line 214). -/
def pyFixed (n : Int) : String := rstripChar '.' (rstripChar '0' (fmtFixed3 n))

/-- `clean_number` (`src/main.py` lines 206-215). -/
def clean_number (val : Option String) : Option String × Bool × String :=
  if isBlank val then (val, false, "none") else
  let s := val.getD ""
  match NUM_RE_search (removeChar ',' s).data with
  | none => (some s, false, "unchanged")
  | some m =>
    let fixed := pyFixed (fix3 m.value)
    if fixed = s then (some fixed, false, "standard")
    else (some fixed, true, "number_extract")

/-- Exception-aware `clean_number`: identical control flow, except that
the one operation in the rule set able to raise — `float(m.group())` at
`src/main.py` line 213 — is modelled by the fallible `pyFloat`, and a
parse failure surfaces as `Except.error`.  Every other operation in every
rule (regex search, substring tests, `dict.get` with default,
`process.extractOne` whose `None` is pattern-matched) is total in Python
and in the embedding. -/
def clean_numberE (val : Option String) : Except String (Option String × Bool × String) :=
  if isBlank val then .ok (val, false, "none") else
  let s := val.getD ""
  match NUM_RE_search (removeChar ',' s).data with
  | none => .ok (some s, false, "unchanged")
  | some m =>
    match pyFloat m.render with
    | none => .error "ValueError: could not convert string to float"
    | some num =>
      let fixed := pyFixed (fix3 num)
      if fixed = s then .ok (some fixed, false, "standard")
      else .ok (some fixed, true, "number_extract")

/-- `clean_cell` (`src/main.py` lines 219-235): fixed column dispatch,
unknown columns returned untouched. -/
def clean_cell (col : String) (val : Option String) : Option String × Bool × String :=
  if col = "物料简称" ∨ col = "名称" then clean_mylar_name val else
  if col = "颜色" then clean_color val else
  if col = "材质" then clean_material val else
  if col = "是否带指纹" then clean_fingerprint val else
  if col = "背胶型号" then clean_adhesive val else
  if col = "其它特殊属性" then clean_other val else
  if col = "长L(mm)" ∨ col = "宽W(mm)" ∨ col = "厚H(mm)" then clean_number val else
  (val, false, "none")

/-- Exception-aware `clean_cell`: as `clean_cell`, with the numeric rule
routed through `clean_numberE` (the only rule containing a
possibly-raising operation). -/
def clean_cellE (col : String) (val : Option String) :
    Except String (Option String × Bool × String) :=
  if col = "物料简称" ∨ col = "名称" then .ok (clean_mylar_name val) else
  if col = "颜色" then .ok (clean_color val) else
  if col = "材质" then .ok (clean_material val) else
  if col = "是否带指纹" then .ok (clean_fingerprint val) else
  if col = "背胶型号" then .ok (clean_adhesive val) else
  if col = "其它特殊属性" then .ok (clean_other val) else
  if col = "长L(mm)" ∨ col = "宽W(mm)" ∨ col = "厚H(mm)" then clean_numberE val else
  .ok (val, false, "none")

/-- C1.  The claimed invariant "`changed=true` implies output ≠ input (as
strings)" fails on the code: the already-canonical fingerprint cell
`"W/ FP"` is cleaned to `"W/FP"`, caught by the substring test
`"W/FP" in raw` (`src/main.py` line 157), and returned as `"W/ FP"` with
`changed=True` and tag `"mapping"` — output equal to input yet flagged
changed (the `# 已经是标准?` branch at lines 163-164 that would return
`changed=False` is unreachable).  This theorem evaluates the rule at the
failing input: changed is `true` while the output equals the input. -/
theorem fingerprint_changed_true_on_identity :
    clean_fingerprint (some "W/ FP") = (some "W/ FP", true, "mapping") ∧
    ((clean_fingerprint (some "W/ FP")).2.1 = true ∧
      (clean_fingerprint (some "W/ FP")).1 = some "W/ FP") := by decide

/-- C2.  Idempotence fails on the code: `clean_mylar_name "麦拉"` outputs
`"Mylar"`, but applying the rule to its own output `"Mylar"` again takes
the `"MYLAR" in txt_u` keyword branch (`src/main.py` line 53) and returns
`changed=True`, not `changed=False`: canonical forms are not fixed
points. -/
theorem mylar_not_idempotent_on_own_output :
    clean_mylar_name (some "麦拉") = (some "Mylar", true, "cn_keyword") ∧
    clean_mylar_name (some "Mylar") = (some "Mylar", true, "cn_keyword") ∧
    (clean_mylar_name (some "Mylar")).2.1 = true := by decide

/-- C3.  The claimed compact-form behaviour fails on the code: a cleaned
value equal to `"W/FP"` or `"W/OFP"` is always caught first by the
substring branch at `src/main.py` lines 157-160, so the rule returns tag
`"mapping"` with `changed=True` — never `case_fix`, and never
`changed=False`/`standard` for the already-canonical `"W/ FP"`.  The
theorem evaluates both cited situations: original without canonical
spacing (`"w/fp"`), and the already-canonical `"W/ FP"`. -/
theorem fingerprint_compact_forms_tagged_mapping :
    clean_fingerprint (some "w/fp") = (some "W/ FP", true, "mapping") ∧
    clean_fingerprint (some "W/ FP") ≠ (some "W/ FP", false, "standard") ∧
    (clean_fingerprint (some "W/ FP")).2.2 = "mapping" := by decide

/-- C6.  The numeric-dimension rule on the three cited inputs:
`"12.3456mm"` becomes `"12.346"` (`number_extract`), `"abc"` is untouched
(`unchanged`), and `"10.000"` becomes `"10"` (`number_extract`, since the
formatted string differs from the raw input). -/
theorem number_rule_examples :
    clean_number (some "12.3456mm") = (some "12.346", true, "number_extract") ∧
    clean_number (some "abc") = (some "abc", false, "unchanged") ∧
    clean_number (some "10.000") = (some "10", true, "number_extract") := by decide

/-- C9.  `"项目名称"` is listed in `TARGET_COLS` (`src/main.py` line 18)
but has no branch in `clean_cell` (lines 219-235), so every cell of that
column falls through to the safety default `(val, False, "none")`: the
column is iterated as a target but never actually normalized. -/
theorem project_name_column_never_normalized :
    "项目名称" ∈ TARGET_COLS ∧
    ∀ val : Option String, clean_cell "项目名称" val = (val, false, "none") := by
  refine ⟨by decide, fun val => ?_⟩
  rfl

/-- C8.  Every rule opens with the guard
`pd.isna(val) or not str(val).strip()` and returns `(val, False, "none")`
on a missing, empty, or whitespace-only cell; the dispatcher's default
does the same, so the property holds for every column. -/
theorem blank_input_passthrough (col : String) (val : Option String)
    (h : isBlank val = true) :
    clean_cell col val = (val, false, "none") := by
  unfold clean_cell
  split_ifs <;>
    simp [clean_mylar_name, clean_color, clean_material, clean_fingerprint,
      clean_adhesive, clean_other, clean_number, h]

/-- Witness for C8: the color rule returns a whitespace-only cell
untouched with rule `none`. -/
theorem blank_input_passthrough_witness :
    clean_cell "颜色" (some "   ") = (some "   ", false, "none") :=
  blank_input_passthrough "颜色" (some "   ") (by decide)

/-- C4.  When the entire trimmed content of a (non-blank) color cell is
not a single recognized color token — i.e. the whole-string pattern
`COLOR_STRICT_RE` does not match — `clean_color` can only act through the
fuzzy branch with threshold 92: it rewrites to the fuzzy hit, or returns
the trimmed value unchanged.  A multi-word string merely containing a
color word never matches the strict pattern. -/
theorem color_strict_fail_fuzzy_only (s : String)
    (h0 : pyStrip s ≠ "")
    (h : COLOR_STRICT_match (pyStrip s) = false) :
    clean_color (some s) =
      match fuzzy_one (pyStrip s) COLORS 92 with
      | some hit => (some hit, true, "fuzzy")
      | none => (some (pyStrip s), false, "unchanged") := by
  have hb : isBlank (some s) = false := by
    simp [isBlank, h0]
  unfold clean_color
  simp [hb, h, Option.getD]

/-- Witness for C4: `"blueish"` contains the color word `blue` but is not
itself a color token; its best fuzzy score against the canonical colors
is below 92, so the cell is returned unchanged. -/
theorem color_strict_fail_fuzzy_only_witness :
    clean_color (some "blueish") = (some "blueish", false, "unchanged") := by
  have h := color_strict_fail_fuzzy_only "blueish" (by decide) (by decide)
  rw [h]
  decide


/-- Folding `extractStep` preserves the invariant that the accumulator,
when present, is a pool element paired with its exact score fraction. -/
theorem foldl_extractStep_spec (s : String) (pool : List String) :
    ∀ (l : List String), (∀ x ∈ l, x ∈ pool) →
    ∀ (acc : Option (String × Nat × Nat)),
    (∀ b n d, acc = some (b, n, d) →
      b ∈ pool ∧ n = scoreNum s.data b.data ∧ d = scoreDen s.data b.data) →
    ∀ b n d, l.foldl (extractStep s) acc = some (b, n, d) →
      b ∈ pool ∧ n = scoreNum s.data b.data ∧ d = scoreDen s.data b.data := by
  intro l
  induction l with
  | nil => exact fun _ acc hacc => hacc
  | cons x xs ih =>
    intro hl acc hacc
    refine ih (fun y hy => hl y (List.mem_cons_of_mem x hy)) (extractStep s acc x) ?_
    intro b n d hstep
    have hx : x ∈ pool := hl x (List.mem_cons_self x xs)
    cases acc with
    | none =>
      simp only [extractStep, Option.some.injEq, Prod.mk.injEq] at hstep
      obtain ⟨rfl, rfl, rfl⟩ := hstep
      exact ⟨hx, rfl, rfl⟩
    | some p =>
      obtain ⟨b0, n0, d0⟩ := p
      simp only [extractStep] at hstep
      split at hstep <;>
        · simp only [Option.some.injEq, Prod.mk.injEq] at hstep
          obtain ⟨rfl, rfl, rfl⟩ := hstep
          first
          | exact ⟨hx, rfl, rfl⟩
          | exact hacc _ _ _ rfl

/-- Any result of `extractOne` is a pool element with its exact score. -/
theorem extractOne_spec (s : String) (pool : List String) (b : String) (n d : Nat)
    (h : extractOne s pool = some (b, n, d)) :
    b ∈ pool ∧ n = scoreNum s.data b.data ∧ d = scoreDen s.data b.data :=
  foldl_extractStep_spec s pool pool (fun _ hx => hx) none
    (by intro b' n' d' hc; cases hc) b n d h

/-- A successful `fuzzy_one` hit is a pool element whose similarity
reaches the threshold (scores compared as exact fractions). -/
theorem fuzzy_one_some_spec (s : String) (pool : List String) (t : Nat) (b : String)
    (h : fuzzy_one s pool t = some b) :
    b ∈ pool ∧ t * scoreDen s.data b.data ≤ scoreNum s.data b.data := by
  unfold fuzzy_one at h
  split at h
  · exact absurd h (by simp)
  · rcases hx : extractOne s pool with _ | ⟨b0, n0, d0⟩ <;> rw [hx] at h
    · exact absurd h (by simp)
    · have hs := extractOne_spec s pool b0 n0 d0 hx
      obtain ⟨hmem, rfl, rfl⟩ := hs
      dsimp only at h
      split at h
      · rename_i hth
        simp only [Option.some.injEq] at h
        subst h
        exact ⟨hmem, hth⟩
      · exact absurd h (by simp)

/-- When every pool element scores strictly below the threshold,
`fuzzy_one` returns `none`. -/
theorem fuzzy_one_none_of_below (s : String) (pool : List String) (t : Nat)
    (h : ∀ a ∈ pool, scoreNum s.data a.data < t * scoreDen s.data a.data) :
    fuzzy_one s pool t = none := by
  unfold fuzzy_one
  split
  · rfl
  · rcases hx : extractOne s pool with _ | ⟨b0, n0, d0⟩
    · rfl
    · have hs := extractOne_spec s pool b0 n0 d0 hx
      obtain ⟨hmem, rfl, rfl⟩ := hs
      have hlt := h b0 hmem
      dsimp only
      rw [if_neg (by omega)]

/-- C5.  For a non-blank adhesive cell that is neither an exact canonical
code nor a case/space-insensitive match of one, `clean_adhesive` rewrites
only when the best fuzzy similarity reaches 94 percent: if it reports
`changed`, some canonical code scores at least 94, and if every canonical
code scores strictly below 94 the cell is returned unchanged. -/
theorem adhesive_fuzzy_threshold_94 (s : String)
    (h0 : pyStrip s ≠ "")
    (h1 : pyStrip s ∉ ADHESIVES)
    (h2 : ∀ a ∈ ADHESIVES,
      removeChar ' ' (pyUpper (pyStrip s)) ≠ removeChar ' ' (pyUpper a)) :
    ((clean_adhesive (some s)).2.1 = true →
      ∃ a ∈ ADHESIVES,
        94 * scoreDen (pyStrip s).data a.data ≤ scoreNum (pyStrip s).data a.data) ∧
    ((∀ a ∈ ADHESIVES,
        scoreNum (pyStrip s).data a.data < 94 * scoreDen (pyStrip s).data a.data) →
      clean_adhesive (some s) = (some (pyStrip s), false, "unchanged")) := by
  have hb : isBlank (some s) = false := by
    simp [isBlank, h0]
  have hfind : ADHESIVES.find?
      (fun a => removeChar ' ' (pyUpper (pyStrip s)) == removeChar ' ' (pyUpper a)) = none := by
    rw [List.find?_eq_none]
    intro a ha
    simpa using h2 a ha
  have hred : clean_adhesive (some s) =
      match fuzzy_one (pyStrip s) ADHESIVES 94 with
      | some hit => (some hit, true, "fuzzy")
      | none => (some (pyStrip s), false, "unchanged") := by
    unfold clean_adhesive
    simp [hb, h1, hfind]
  constructor
  · intro hch
    rw [hred] at hch
    rcases hfz : fuzzy_one (pyStrip s) ADHESIVES 94 with _ | hit <;> rw [hfz] at hch
    · simp at hch
    · have hspec := fuzzy_one_some_spec _ _ _ _ hfz
      exact ⟨hit, hspec.1, hspec.2⟩
  · intro hbelow
    rw [hred, fuzzy_one_none_of_below _ _ _ hbelow]

/-- Witness for C5: `"3M949"` is not a canonical adhesive code, matches
none case/space-insensitively, and its best similarity (against
`"3M9495"`) is 1000/11 ≈ 90.9 < 94, so the cell is returned unchanged. -/
theorem adhesive_fuzzy_threshold_94_witness :
    clean_adhesive (some "3M949") = (some "3M949", false, "unchanged") := by
  have h := (adhesive_fuzzy_threshold_94 "3M949" (by decide) (by decide)
    (by decide)).2 (by decide)
  exact h.trans (by decide)

/-- C10.  In `clean_mylar_name`, the touchpad scan is a substring test on
the letters-only uppercased text: any input containing a generic mylar
keyword (`"麦拉"` or `"MYLAR"` after uppercasing), none of the earlier
Chinese keywords / `DDR` / the token-delimited `MB`, `DB`, `KB` markers,
and the adjacent letter pair `"TP"` anywhere among its alphabetic
characters, is rewritten to `"Touchpad Mylar"` with `changed=true` and
rule `keyword_rule` — regardless of whether `TP` is a standalone token or
sits inside a longer word. -/
theorem mylar_tp_marker_is_substring_scan (s : String)
    (hmy : pySubstr "麦拉" (pyStrip s) = true ∨
      pySubstr "MYLAR" (pyUpper (pyStrip s)) = true)
    (h1 : pySubstr "触摸板" (pyStrip s) = false)
    (h2 : pySubstr "键盘" (pyStrip s) = false)
    (h3 : pySubstr "主板" (pyStrip s) = false)
    (h4 : pySubstr "副板" (pyStrip s) = false)
    (h5 : pySubstr "DDR" (pyUpper (pyStrip s)) = false)
    (h6 : pySubstr " MB" (" " ++ pyUpper (pyStrip s) ++ " ") = false)
    (h7 : pyStarts (pyUpper (pyStrip s)) "MB " = false)
    (h8 : pySubstr " DB" (" " ++ pyUpper (pyStrip s) ++ " ") = false)
    (h9 : pySubstr " KB" (" " ++ pyUpper (pyStrip s) ++ " ") = false)
    (htp : pySubstr "TP" (lettersToSpace (pyUpper (pyStrip s))) = true) :
    clean_mylar_name (some s) = (some "Touchpad Mylar", true, "keyword_rule") := by
  have hraw : pyStrip s ≠ "" := by
    rcases hmy with h | h <;>
      · intro hc
        rw [hc] at h
        exact absurd h (by decide)
  have hb : isBlank (some s) = false := by
    simp [isBlank, hraw]
  have hor : (pySubstr "麦拉" (pyStrip s) ||
      pySubstr "MYLAR" (pyUpper (pyStrip s))) = true := by
    rcases hmy with h | h <;> simp [h]
  unfold clean_mylar_name
  simp [hb, h1, h2, h3, h4, h5, h6, h7, h8, h9, htp, hor]

/-- Witness for C10: `"MylarTP"` has the pair `TP` inside the single word
`MYLARTP` (not as a separate token) and is still rewritten to
`"Touchpad Mylar"`. -/
theorem mylar_tp_marker_is_substring_scan_witness :
    clean_mylar_name (some "MylarTP") = (some "Touchpad Mylar", true, "keyword_rule") :=
  mylar_tp_marker_is_substring_scan "MylarTP" (Or.inr (by decide)) (by decide)
    (by decide) (by decide) (by decide) (by decide) (by decide) (by decide)
    (by decide) (by decide) (by decide)

/-- Well-formedness of a `NUM_RE` match: nonempty integer digit run, all
recorded characters are digits. -/
def NumMatch.Valid (m : NumMatch) : Prop :=
  m.ip ≠ [] ∧ (∀ c ∈ m.ip, isDigitC c = true) ∧ (∀ c ∈ m.fp, isDigitC c = true)

/-- Splitting a list that starts with an all-`p` block: `takeWhile`
absorbs the block and `dropWhile` discards it. -/
theorem takeWhile_append_of_all (p : Char → Bool) (ds r : List Char)
    (h : ∀ c ∈ ds, p c = true) :
    (ds ++ r).takeWhile p = ds ++ r.takeWhile p ∧
      (ds ++ r).dropWhile p = r.dropWhile p := by
  induction ds with
  | nil => simp
  | cons c cs ih =>
    have hc : p c = true := h c (List.mem_cons_self c cs)
    have ih2 := ih (fun x hx => h x (List.mem_cons_of_mem c hx))
    simp [List.takeWhile_cons, List.dropWhile_cons, hc, ih2.1, ih2.2]


/-- A successful anchored core match is well formed. -/
theorem matchNumCore_valid (neg : Bool) (cs : List Char) (m : NumMatch)
    (h : matchNumCore neg cs = some m) : m.Valid := by
  unfold matchNumCore at h
  by_cases he : (cs.takeWhile isDigitC).isEmpty = true
  · rw [if_pos he] at h
    cases h
  · rw [if_neg he] at h
    have hne : cs.takeWhile isDigitC ≠ [] := by
      simpa [List.isEmpty_iff] using he
    split at h
    · injection h with h1
      subst h1
      exact ⟨hne, fun c hc => List.mem_takeWhile_imp hc,
        fun c hc => List.mem_takeWhile_imp hc⟩
    · injection h with h1
      subst h1
      exact ⟨hne, fun c hc => List.mem_takeWhile_imp hc,
        fun c hc => absurd hc (List.not_mem_nil c)⟩

/-- A successful anchored match is well formed. -/
theorem matchNumAt_valid (cs : List Char) (m : NumMatch)
    (h : matchNumAt cs = some m) : m.Valid := by
  unfold matchNumAt at h
  split at h
  · exact matchNumCore_valid _ _ _ h
  · exact matchNumCore_valid _ _ _ h

/-- Every match produced by `NUM_RE.search` is well formed. -/
theorem NUM_RE_search_valid (cs : List Char) (m : NumMatch)
    (h : NUM_RE_search cs = some m) : m.Valid := by
  induction cs with
  | nil => cases h
  | cons c cs ih =>
    unfold NUM_RE_search at h
    split at h
    · rename_i m' hm'
      injection h with h1
      subst h1
      exact matchNumAt_valid _ _ hm'
    · exact ih h

/-- `pyFloatCore` accepts the unsigned text of a well-formed match and
returns its exact value. -/
theorem pyFloatCore_render (ip fp : List Char)
    (hip : ip ≠ []) (hd : ∀ c ∈ ip, isDigitC c = true)
    (hf : ∀ c ∈ fp, isDigitC c = true) :
    pyFloatCore (ip ++ (if fp.isEmpty then [] else '.' :: fp)) =
      some (false, digitsToNat ip * 10 ^ fp.length + digitsToNat fp, 10 ^ fp.length) := by
  have hipE : ip.isEmpty = false := by
    simpa [List.isEmpty_iff] using hip
  have hdz : digitsToNat ([] : List Char) = 0 := rfl
  cases fp with
  | nil =>
    have hsplit := takeWhile_append_of_all isDigitC ip [] hd
    simp only [List.append_nil, List.takeWhile_nil, List.dropWhile_nil] at hsplit
    show pyFloatCore (ip ++ []) = _
    rw [List.append_nil]
    unfold pyFloatCore
    rw [hsplit.1, hsplit.2]
    simp [hipE, hdz]
  | cons f fs =>
    have hsplit := takeWhile_append_of_all isDigitC ip ('.' :: f :: fs) hd
    have hfs := takeWhile_append_of_all isDigitC (f :: fs) [] hf
    simp only [List.append_nil, List.takeWhile_nil, List.dropWhile_nil] at hfs
    show pyFloatCore (ip ++ '.' :: f :: fs) = _
    unfold pyFloatCore
    rw [hsplit.1, hsplit.2]
    have ht1 : List.takeWhile isDigitC ('.' :: f :: fs) = [] := rfl
    have hd1 : List.dropWhile isDigitC ('.' :: f :: fs) = '.' :: f :: fs := rfl
    rw [ht1, hd1, List.append_nil]
    show (if List.dropWhile isDigitC (f :: fs) = [] then
        if (ip.isEmpty && (List.takeWhile isDigitC (f :: fs)).isEmpty) = true then none
        else some (false,
          digitsToNat ip * 10 ^ (List.takeWhile isDigitC (f :: fs)).length +
            digitsToNat (List.takeWhile isDigitC (f :: fs)),
          10 ^ (List.takeWhile isDigitC (f :: fs)).length)
      else none) =
      some (false, digitsToNat ip * 10 ^ (f :: fs).length + digitsToNat (f :: fs),
        10 ^ (f :: fs).length)
    rw [hfs.1, hfs.2]
    simp [hipE]

/-- `float(m.group())` never raises on a well-formed `NUM_RE` match and
returns the match's exact value. -/
theorem pyFloat_render (m : NumMatch) (hv : m.Valid) :
    pyFloat m.render = some m.value := by
  obtain ⟨neg, ip, fp⟩ := m
  obtain ⟨hip, hd, hf⟩ := hv
  cases neg with
  | true =>
    show (pyFloatCore (ip ++ (if fp.isEmpty then [] else '.' :: fp))).map
        (fun v => (true, v.2.1, v.2.2)) =
      some (true, digitsToNat ip * 10 ^ fp.length + digitsToNat fp, 10 ^ fp.length)
    rw [pyFloatCore_render ip fp hip hd hf]
    rfl
  | false =>
    cases ip with
    | nil => exact absurd rfl hip
    | cons c cs =>
      have hc : isDigitC c = true := hd c (List.mem_cons_self c cs)
      have hc1 : ¬(c = '-') := by
        intro hcc
        subst hcc
        exact absurd hc (by decide)
      have hc2 : ¬(c = '+') := by
        intro hcc
        subst hcc
        exact absurd hc (by decide)
      show (if c = '-' then
          (pyFloatCore (cs ++ (if fp.isEmpty then [] else '.' :: fp))).map
            (fun v => (true, v.2.1, v.2.2))
        else if c = '+' then pyFloatCore (cs ++ (if fp.isEmpty then [] else '.' :: fp))
        else pyFloatCore (c :: (cs ++ (if fp.isEmpty then [] else '.' :: fp)))) =
        some (false, digitsToNat (c :: cs) * 10 ^ fp.length + digitsToNat fp, 10 ^ fp.length)
      rw [if_neg hc1, if_neg hc2]
      have hcore := pyFloatCore_render (c :: cs) fp hip hd hf
      rw [List.cons_append] at hcore
      exact hcore

/-- The numeric rule never raises: its one fallible operation,
`float(m.group())`, always succeeds on a `NUM_RE` match, so the
exception-aware embedding agrees with the total one on every input. -/
theorem clean_numberE_ok (val : Option String) :
    clean_numberE val = Except.ok (clean_number val) := by
  unfold clean_numberE clean_number
  split
  · rfl
  · dsimp only
    rcases hsearch : NUM_RE_search (removeChar ',' (val.getD "")).data with _ | m
    · rfl
    · dsimp only
      rw [pyFloat_render m (NUM_RE_search_valid _ _ hsearch)]
      split
      · rename_i heq
        cases heq
      · rename_i num heq
        injection heq with h2
        subst h2
        split <;> rfl

/-- C7.  Every rule function is total: for every column and every cell
value — missing, malformed, or arbitrary text — the exception-aware
dispatcher returns `Except.ok` of the total dispatcher's triple, never an
error.  The only possibly-raising operation in the rule set is `float()`
in `clean_number` (all dictionary lookups are defaulted, `extractOne`'s
`None` is handled explicitly), and `clean_numberE_ok` shows it never
fires: "no confident rule applies" surfaces as an `unchanged` result, not
a failure. -/
theorem rules_total_no_exception (col : String) (val : Option String) :
    clean_cellE col val = Except.ok (clean_cell col val) := by
  unfold clean_cellE clean_cell
  split_ifs <;> first
    | rfl
    | exact clean_numberE_ok val
